import Mathlib

/-!
Verification of the course/activity choice-index core of `semester_organizer`.

The embedding models the two operations the spec singles out — the Choice
Index Builder (`Database.load_courses_choices`) and the Activity Retriever
(`Database.load_activities_by_courses_choices`) in `src/collector/db/db.py` —
together with the `Course` value object from `src/data/course.py`.

The SQLite store is embedded as explicit table contents (`DB` below): each
SQL query of the source becomes the corresponding filter/join over those
lists.  File-system plumbing (the `os.path.exists` guards, settings files)
is persistence-collaborator territory that the spec places out of scope; the
store is modelled as present.
-/

namespace SemOrg

/-- Modelled from the spec: `data/semester.py` is not under `src/`; the spec
only says a Course carries a "set of semesters offered", so semesters are an
opaque enumeration with decidable equality. -/
inductive Semester where
  | fall
  | spring
  | summer
  | annual
deriving DecidableEq

/-- Modelled from the spec: `data/type.py` is not under `src/`.  The spec
calls the kind "a closed enumeration: lecture, seminar, practice, lab, or
other".  The Python class is named `Type`, which Lean reserves. -/
inductive ActivityType where
  | lecture
  | seminar
  | practice
  | lab
  | other
deriving DecidableEq

/-- Modelled from the spec: `Type.is_lecture` — the {LECTURE, SEMINAR}
"lecture-like" grouping of §3 of the spec, used by `Course.set_attendance_required`. -/
def ActivityType.is_lecture : ActivityType → Bool
  | .lecture => true
  | .seminar => true
  | _ => false

/-- Modelled from the spec: `Type.is_exercise` — the {PRACTICE, LAB}
"practice-like" grouping of §3 of the spec. -/
def ActivityType.is_exercise : ActivityType → Bool
  | .practice => true
  | .lab => true
  | _ => false

/-- Modelled from the spec: `data/language.py` is not under `src/`.  The
queries of `db.py` consume a language only through `language.short_name()`,
so a language is embedded as its two-character short name. -/
structure Language where
  short_name : String
deriving DecidableEq

/-- `data/course.py`, class `Course`.  `activity_id` is `None`-able, hence
`Option String`; Python truthiness of a string (non-`None` and non-empty)
matters in `__eq__` and is captured by `truthyStr` below.  The Python
`semesters` attribute is a `set`, hence a `Finset`. -/
structure Course where
  name : String
  course_number : Int
  parent_course_number : Int
  attendance_required_for_lecture : Bool := true
  attendance_required_for_practice : Bool := true
  activity_id : Option String := none
  actual_course_number : Option Int := none
  semesters : Finset Semester := ∅
deriving DecidableEq

/-- Python truthiness of an optional string: `None` and `""` are falsy. -/
def truthyStr : Option String → Bool
  | none => false
  | some s => s ≠ ""

/-- `Course.add_semesters`: `self.semesters.update(semesters)` — a set union
in place.  (The `Union[Semester, Set[Semester]]` argument is normalised by the
source to a set; the singleton case is `{s}`.) -/
def Course.add_semesters (c : Course) (semesters : Finset Semester) : Course :=
  { c with semesters := c.semesters ∪ semesters }

/-- `Course.set_attendance_required`. -/
def Course.set_attendance_required (c : Course) (course_type : ActivityType)
    (required : Bool) : Course :=
  if course_type.is_lecture then
    { c with attendance_required_for_lecture := required }
  else if course_type.is_exercise then
    { c with attendance_required_for_practice := required }
  else
    c

/-- `Course.__eq__`: when both `activity_id`s are truthy, compare them;
otherwise compare `(name, course_number, parent_course_number)`. -/
def Course.eq (c other : Course) : Bool :=
  if truthyStr c.activity_id && truthyStr other.activity_id then
    c.activity_id == other.activity_id
  else
    c.name == other.name && c.course_number == other.course_number &&
      c.parent_course_number == other.parent_course_number

/-- `Course.__hash__` returns `hash((name, course_number, parent_course_number))`;
the embedding returns the tuple itself (the key fed to Python's `hash`), so
two courses get the same hash exactly when they agree on this triple. -/
def Course.hashKey (c : Course) : String × Int × Int :=
  (c.name, c.course_number, c.parent_course_number)

/-- `Course.is_attendance_required`. -/
def Course.is_attendance_required (c : Course) (course_type : ActivityType) : Bool :=
  if course_type.is_lecture then c.attendance_required_for_lecture
  else if course_type.is_exercise then c.attendance_required_for_practice
  else true

/-- Modelled from the spec: `data/course_choice.py` is not under `src/`.  A
CourseChoice is "course name plus two unordered collections of lecturer
names" (§3); `db.py` consumes the two collections only through emptiness and
membership, so they are embedded as finite sets. -/
structure CourseChoice where
  name : String
  available_teachers_for_lecture : Finset String
  available_teachers_for_practice : Finset String
deriving DecidableEq

/-- Modelled from the spec: `data/meeting.py` is not under `src/`; §3 gives a
Meeting day-of-week, start and end time and a generated id — the columns of
the `meetings` table. -/
structure Meeting where
  meeting_id : Nat
  day : Int
  start_time : String
  end_time : String
deriving DecidableEq

/-! ### The relational store

One structure field per SQL table touched by the two operations under
verification; a row structure field per column, in the source's column
order.  `lecturer_name` of `activities` is nullable in the schema (no `NOT
NULL` constraint), hence `Option String`. -/

/-- A row of the `campuses` table. -/
structure CampusRow where
  id : Nat
  english_name : String
  hebrew_name : String
deriving DecidableEq

/-- A row of the `courses` table. -/
structure CoursesRow where
  name : String
  course_number : Int
  parent_course_number : Int
  language_value : String
deriving DecidableEq

/-- A row of the `courses_lecturers` table. -/
structure CoursesLecturersRow where
  course_number : Int
  parent_course_number : Int
  lecturer_name : String
  is_lecture_rule : Bool
  campus_id : Nat
  language_value : String
deriving DecidableEq

/-- A row of the `activities` table. -/
structure ActivityRow where
  name : String
  activity_type : ActivityType
  attendance_required : Bool
  lecturer_name : Option String
  course_number : Int
  parent_course_number : Int
  location : String
  activity_id : String
  description : String
  current_capacity : Int
  max_capacity : Int
  actual_course_number : Int
  campus_id : Nat
  language_value : String
deriving DecidableEq

/-- A row of the `meetings` table. -/
structure MeetingRow where
  id : Nat
  day : Int
  start_time : String
  end_time : String
deriving DecidableEq

/-- A row of the `activities_meetings` link table. -/
structure ActivitiesMeetingsRow where
  activity_id : String
  meeting_id : Nat
  campus_id : Nat
  language_value : String
deriving DecidableEq

/-- The database contents relevant to the Builder and the Retriever. -/
structure DB where
  campuses : List CampusRow
  courses : List CoursesRow
  courses_lecturers : List CoursesLecturersRow
  activities : List ActivityRow
  activities_meetings : List ActivitiesMeetingsRow
  meetings : List MeetingRow

/-- The failure of `cursor.fetchone()[0]` when the campus SELECT returns no
row — the spec's `NotFound` error; fallible operations return `Except`. -/
inductive DBError where
  | notFound
deriving DecidableEq

/-- `Database.load_campus_id`: `SELECT id FROM campuses WHERE english_name = ?
or hebrew_name = ?` followed by `fetchone()[0]`, which fails when no campus
matches. -/
def Database.load_campus_id (db : DB) (campus_name : String) : Except DBError Nat :=
  match db.campuses.find? (fun r =>
      r.english_name == campus_name || r.hebrew_name == campus_name) with
  | some r => .ok r.id
  | none => .error .notFound

/-- `Course(*data_line)` applied to a 4-column `courses.*` row: the row's
`language_value` is passed positionally into the constructor's `activity_id`
parameter (the source passes all four columns to a constructor whose fourth
parameter is `activity_id`). -/
def courseFromRow (r : CoursesRow) : Course :=
  { name := r.name, course_number := r.course_number,
    parent_course_number := r.parent_course_number,
    activity_id := some r.language_value }

/-- `Database.load_active_courses`: `SELECT DISTINCT courses.*` joined with
`activities` on (parent_course_number, course_number, language_value),
restricted to the campus and language. -/
def Database.load_active_courses (db : DB) (campus_name : String)
    (language : Language) : Except DBError (List Course) := do
  let campus_id ← Database.load_campus_id db campus_name
  let rows := (db.courses.filter (fun c =>
      db.activities.any (fun a =>
        c.parent_course_number == a.parent_course_number &&
        c.course_number == a.course_number &&
        c.language_value == a.language_value &&
        a.campus_id == campus_id) &&
      c.language_value == language.short_name)).dedup
  pure (rows.map courseFromRow)

/-- The rows `SELECT lecturer_name, is_lecture_rule FROM courses_lecturers
WHERE course_number = ? AND parent_course_number = ? AND campus_id = ? AND
language_value = ?` fetches for one course. -/
def rowsFor (db : DB) (campus_id : Nat) (language : Language) (course : Course) :
    List CoursesLecturersRow :=
  db.courses_lecturers.filter (fun r =>
    r.course_number == course.course_number &&
    r.parent_course_number == course.parent_course_number &&
    r.campus_id == campus_id && r.language_value == language.short_name)

/-- The per-course pair of accumulating sets: index 0 is `lecture_index`,
index 1 is `practice_index` of the source. -/
abbrev ChoicePair := Finset String × Finset String

/-- The state of `courses_choices_data` (a `defaultdict` keyed by course
name), embedded as an association list in insertion order. -/
abbrev ChoicesData := List (String × ChoicePair)

/-- `courses_choices_data[course.name][index].add(lecturer_name)`: pick the
lecture or practice set by the role flag and add the lecturer. -/
def addLecturer (is_lecture_rule : Bool) (p : ChoicePair) (lecturer : String) :
    ChoicePair :=
  if is_lecture_rule then (insert lecturer p.1, p.2) else (p.1, insert lecturer p.2)

/-- One `defaultdict` update: if the name is already a key, update its pair in
place; otherwise the access materialises the default `(set(), set())` entry at
the end and updates it. -/
def updateData : ChoicesData → String → String → Bool → ChoicesData
  | [], name, lecturer, flag => [(name, addLecturer flag (∅, ∅) lecturer)]
  | (k, v) :: rest, name, lecturer, flag =>
    if k = name then (k, addLecturer flag v lecturer) :: rest
    else (k, v) :: updateData rest name lecturer flag

/-- The body of the Builder's outer loop for one course: fold the course's
fetched lecturer-role rows into the accumulating data. -/
def processCourse (db : DB) (campus_id : Nat) (language : Language)
    (data : ChoicesData) (course : Course) : ChoicesData :=
  (rowsFor db campus_id language course).foldl
    (fun d r => updateData d course.name r.lecturer_name r.is_lecture_rule) data

/-- `Database.load_courses_choices` (the Choice Index Builder).  The Python
`courses or self.load_active_courses(...)` falls back to the active courses
when the argument is `None` or an empty list.  The returned `dict` is
embedded as an association list in insertion order. -/
def Database.load_courses_choices (db : DB) (campus_name : String)
    (language : Language) (courses_arg : Option (List Course)) :
    Except DBError (List (String × CourseChoice)) := do
  let campus_id ← Database.load_campus_id db campus_name
  let courses ← match courses_arg with
    | some cs =>
      if cs.isEmpty then Database.load_active_courses db campus_name language
      else pure cs
    | none => Database.load_active_courses db campus_name language
  let data := courses.foldl (processCourse db campus_id language) []
  pure (data.map (fun p => (p.1, CourseChoice.mk p.1 p.2.1 p.2.2)))

/-! ### The Activity Retriever -/

/-- `lecture_types = [Type.LECTURE, Type.SEMINAR]`. -/
def lecture_types : List ActivityType := [.lecture, .seminar]

/-- `practice_types = [Type.PRACTICE, Type.LAB]`. -/
def practice_types : List ActivityType := [.practice, .lab]

/-- The dynamically built lecturer condition: `lecturer_name in (...)` when
the selection is non-empty (SQL `IN` is unsatisfied by a NULL lecturer),
otherwise the fallback `lecturer_name IS NOT NULL`. -/
def lecturerFilter (selected : Finset String) (lecturer_name : Option String) : Bool :=
  if selected = ∅ then
    lecturer_name.isSome
  else
    match lecturer_name with
    | some l => decide (l ∈ selected)
    | none => false

/-- The WHERE clause of the Retriever's activities SELECT for one course
entry. -/
def activityMatches (course_name : String) (choice : CourseChoice) (campus_id : Nat)
    (language : Language) (r : ActivityRow) : Bool :=
  r.name == course_name && r.language_value == language.short_name &&
    r.campus_id == campus_id &&
    ((decide (r.activity_type ∈ lecture_types) &&
        lecturerFilter choice.available_teachers_for_lecture r.lecturer_name) ||
      (decide (r.activity_type ∈ practice_types) &&
        lecturerFilter choice.available_teachers_for_practice r.lecturer_name))

/-- `Meeting.create_meeting_from_database(*data_line)` on a `meetings.*` row. -/
def Meeting.create_meeting_from_database (r : MeetingRow) : Meeting :=
  { meeting_id := r.id, day := r.day, start_time := r.start_time, end_time := r.end_time }

/-- The meetings query of the Retriever: `SELECT meetings.* FROM meetings
INNER JOIN activities_meetings ON meetings.id = activities_meetings.meeting_id
WHERE activity_id = ? AND campus_id = ? AND language_value = ?` — one output
row per matching (meeting, link) pair. -/
def loadMeetings (db : DB) (activity_id : String) (campus_id : Nat)
    (language : Language) : List Meeting :=
  db.meetings.flatMap (fun m =>
    (db.activities_meetings.filter (fun am =>
      m.id == am.meeting_id && am.activity_id == activity_id &&
      am.campus_id == campus_id && am.language_value == language.short_name)).map
      (fun _ => Meeting.create_meeting_from_database m))

/-- Modelled from the spec: `data/academic_activity.py` is not under `src/`.
`AcademicActivity(*data_line)` receives the `activities.*` row with its
trailing `campus_id` and `language_value` columns stripped by the
`*data_line, _campus_id, _language` unpacking; its mutable `meetings`
attribute is then assigned. -/
structure AcademicActivity where
  name : String
  activity_type : ActivityType
  attendance_required : Bool
  lecturer_name : Option String
  course_number : Int
  parent_course_number : Int
  location : String
  activity_id : String
  description : String
  current_capacity : Int
  max_capacity : Int
  actual_course_number : Int
  meetings : List Meeting
deriving DecidableEq

/-- `AcademicActivity(*data_line)` followed by `activity.meetings = meetings`. -/
def academicActivityFromRow (r : ActivityRow) (meetings : List Meeting) :
    AcademicActivity :=
  { name := r.name, activity_type := r.activity_type,
    attendance_required := r.attendance_required, lecturer_name := r.lecturer_name,
    course_number := r.course_number, parent_course_number := r.parent_course_number,
    location := r.location, activity_id := r.activity_id,
    description := r.description, current_capacity := r.current_capacity,
    max_capacity := r.max_capacity, actual_course_number := r.actual_course_number,
    meetings := meetings }

/-- The Retriever's body for one `courses_choices` entry: the activities
SELECT, each row turned into an `AcademicActivity` carrying its meetings. -/
def activitiesForChoice (db : DB) (campus_id : Nat) (language : Language)
    (entry : String × CourseChoice) : List AcademicActivity :=
  (db.activities.filter (activityMatches entry.1 entry.2 campus_id language)).map
    (fun r => academicActivityFromRow r (loadMeetings db r.activity_id campus_id language))

/-- `Database.load_activities_by_courses_choices` (the Activity Retriever).
The input `dict` is embedded as an association list in insertion order;
`activities_result.extend(...)` per entry is the concatenation `flatMap`. -/
def Database.load_activities_by_courses_choices (db : DB)
    (courses_choices : List (String × CourseChoice)) (campus_name : String)
    (language : Language) : Except DBError (List AcademicActivity) := do
  let campus_id ← Database.load_campus_id db campus_name
  pure (courses_choices.flatMap (activitiesForChoice db campus_id language))

/-! ### Observers used to state properties

The Builder returns a Python `dict`, embedded as an association list; the
observers below read it the way the program does: key membership and key
lookup (first occurrence). -/

/-- Key lookup in an association list (the embedded `dict[name]`). -/
def alistLookup {β : Type} : List (String × β) → String → Option β
  | [], _ => none
  | (k, v) :: rest, name => if k = name then some v else alistLookup rest name

/-- The key list of an association list (the embedded `dict.keys()`). -/
def keysOf {β : Type} (d : List (String × β)) : List String := d.map Prod.fst

/-- The Builder's inner loop over the fetched lecturer-role rows of one
course name (`processCourse` is exactly this applied to `rowsFor`). -/
def foldRows (name : String) (rows : List CoursesLecturersRow) (d : ChoicesData) :
    ChoicesData :=
  rows.foldl (fun d r => updateData d name r.lecturer_name r.is_lecture_rule) d

/-- The lecturers of the true-flag (lecture) rows, as a set. -/
def lectSetOf (rows : List CoursesLecturersRow) : Finset String :=
  ((rows.filter (fun r => r.is_lecture_rule)).map (fun r => r.lecturer_name)).toFinset

/-- The lecturers of the false-flag (practice) rows, as a set. -/
def practSetOf (rows : List CoursesLecturersRow) : Finset String :=
  ((rows.filter (fun r => !r.is_lecture_rule)).map (fun r => r.lecturer_name)).toFinset

/-- All lecturer-role rows contributed to one course name by an input course
list: rows of every input course that bears that name. -/
def contribRows (db : DB) (campus_id : Nat) (language : Language)
    (courses : List Course) (name : String) : List CoursesLecturersRow :=
  (courses.filter (fun c => c.name == name)).flatMap (rowsFor db campus_id language)

/-! ### Concrete sample data for witnesses and counterexamples -/

/-- A campus whose English and Hebrew names are both "Main". -/
def mainCampus : CampusRow := ⟨1, "Main", "Main"⟩

/-- The English scope language ("EN"). -/
def english : Language := ⟨"EN"⟩

/-- A course (10, 20) named "Calculus". -/
def calc1 : Course := { name := "Calculus", course_number := 10, parent_course_number := 20 }

/-- A course (11, 21) named "Algebra". -/
def algebra1 : Course := { name := "Algebra", course_number := 11, parent_course_number := 21 }

/-- Cohen lectures course (10, 20) at campus 1 in English. -/
def rowCohenLecture : CoursesLecturersRow := ⟨10, 20, "Cohen", true, 1, "EN"⟩

/-- Levy runs practice for course (10, 20) at campus 1 in English. -/
def rowLevyPractice : CoursesLecturersRow := ⟨10, 20, "Levy", false, 1, "EN"⟩

/-- Smith lectures course (11, 21) at campus 1 in English. -/
def rowSmithAlg : CoursesLecturersRow := ⟨11, 21, "Smith", true, 1, "EN"⟩

/-- A store exercising the Builder: one campus, three lecturer-role rows. -/
def builderDB : DB := ⟨[mainCampus], [], [rowCohenLecture, rowLevyPractice, rowSmithAlg], [], [], []⟩

/-- A "Calculus" lecture activity whose `lecturer_name` is NULL. -/
def nullLectureRow : ActivityRow :=
  ⟨"Calculus", .lecture, true, none, 10, 20, "Room 1", "A0", "", 0, 30, 10, 1, "EN"⟩

/-- A "Calculus" lecture activity taught by Cohen (id "A1"). -/
def actCohenLec : ActivityRow :=
  ⟨"Calculus", .lecture, true, some "Cohen", 10, 20, "R1", "A1", "", 0, 30, 10, 1, "EN"⟩

/-- A "Calculus" lecture activity taught by Levy (id "A2"). -/
def actLevyLec : ActivityRow :=
  ⟨"Calculus", .lecture, true, some "Levy", 10, 20, "R2", "A2", "", 0, 30, 10, 1, "EN"⟩

/-- A "Calculus" practice activity taught by Levy (id "A3"). -/
def actLevyPract : ActivityRow :=
  ⟨"Calculus", .practice, true, some "Levy", 10, 20, "R3", "A3", "", 0, 30, 10, 1, "EN"⟩

/-- A choice restricting "Calculus" lectures to Cohen, practice unconstrained. -/
def cohenChoice : CourseChoice := ⟨"Calculus", insert "Cohen" ∅, ∅⟩

/-- A choice with both lecturer selections empty. -/
def wildcardChoice : CourseChoice := ⟨"Calculus", ∅, ∅⟩

/-- A store exercising the Retriever: one campus, three activities. -/
def retrDB : DB := ⟨[mainCampus], [], [], [actCohenLec, actLevyLec, actLevyPract], [], []⟩

/-- A store whose only activity has a NULL lecturer. -/
def nullLecDB : DB := ⟨[mainCampus], [], [], [nullLectureRow], [], []⟩

/-- Meeting row 100: Monday 09:00-11:00. -/
def meetingRow1 : MeetingRow := ⟨100, 1, "09:00", "11:00"⟩

/-- Meeting row 101: Tuesday 12:00-14:00. -/
def meetingRow2 : MeetingRow := ⟨101, 2, "12:00", "14:00"⟩

/-- Activity "A1" holds meeting 100 at campus 1 in English. -/
def linkA1 : ActivitiesMeetingsRow := ⟨"A1", 100, 1, "EN"⟩

/-- Activity "A1" holds meeting 101 — but at campus 2: out of scope. -/
def linkA1far : ActivitiesMeetingsRow := ⟨"A1", 101, 2, "EN"⟩

/-- A store exercising meeting attachment: the same activity id "A1" is
linked to meeting 100 in scope and to meeting 101 under another campus. -/
def meetDB : DB := ⟨[mainCampus], [], [], [actCohenLec], [linkA1, linkA1far], [meetingRow1, meetingRow2]⟩

/-! ### Helper lemmas -/

/-- `set_attendance_required` only ever rewrites the two attendance flags. -/
theorem set_attendance_required_fields (c : Course) (t : ActivityType) (b : Bool) :
    (c.set_attendance_required t b).name = c.name ∧
      (c.set_attendance_required t b).course_number = c.course_number ∧
      (c.set_attendance_required t b).parent_course_number = c.parent_course_number ∧
      (c.set_attendance_required t b).activity_id = c.activity_id := by
  unfold Course.set_attendance_required
  split
  · exact ⟨rfl, rfl, rfl, rfl⟩
  · split
    · exact ⟨rfl, rfl, rfl, rfl⟩
    · exact ⟨rfl, rfl, rfl, rfl⟩

/-- `Course.eq` reads only the name, the two course numbers and the
`activity_id`. -/
theorem course_eq_congr (c c' d : Course) (hn : c'.name = c.name)
    (hcn : c'.course_number = c.course_number)
    (hp : c'.parent_course_number = c.parent_course_number)
    (ha : c'.activity_id = c.activity_id) :
    Course.eq c' d = Course.eq c d ∧ Course.eq d c' = Course.eq d c := by
  unfold Course.eq
  rw [hn, hcn, hp, ha]
  exact ⟨rfl, rfl⟩

/-- A key is absent from an association list exactly when lookup fails. -/
theorem alistLookup_eq_none_iff {β : Type} (d : List (String × β)) (n : String) :
    alistLookup d n = none ↔ n ∉ keysOf d := by
  induction d with
  | nil => simp [alistLookup, keysOf]
  | cons p rest ih =>
    obtain ⟨k, v⟩ := p
    by_cases hk : k = n
    · subst hk
      simp [alistLookup, keysOf]
    · simp [alistLookup, hk, keysOf, ih, Ne.symm hk]

/-- A `defaultdict` update is visible at its own key: the default `(∅, ∅)`
is materialised when the key was absent. -/
theorem alistLookup_updateData_self (d : ChoicesData) (name lecturer : String)
    (flag : Bool) :
    alistLookup (updateData d name lecturer flag) name =
      some (addLecturer flag ((alistLookup d name).getD (∅, ∅)) lecturer) := by
  induction d with
  | nil => simp [updateData, alistLookup]
  | cons p rest ih =>
    obtain ⟨k, v⟩ := p
    by_cases hk : k = name
    · subst hk
      simp [updateData, alistLookup]
    · simp [updateData, hk, alistLookup, ih]

/-- A `defaultdict` update is invisible at every other key. -/
theorem alistLookup_updateData_other (d : ChoicesData) (name lecturer : String)
    (flag : Bool) (n : String) (h : n ≠ name) :
    alistLookup (updateData d name lecturer flag) n = alistLookup d n := by
  induction d with
  | nil => simp [updateData, alistLookup, Ne.symm h]
  | cons p rest ih =>
    obtain ⟨k, v⟩ := p
    by_cases hk : k = name
    · subst hk
      simp [updateData, alistLookup, h, Ne.symm h]
    · simp only [updateData, hk, if_false]
      by_cases hn : k = n
      · subst hn
        simp [alistLookup]
      · simp [alistLookup, hn, ih]

/-- An update touches no key list entry except possibly appending the new
key at the end. -/
theorem keysOf_cons {β : Type} (k : String) (v : β) (d : List (String × β)) :
    keysOf ((k, v) :: d) = k :: keysOf d := rfl

theorem keysOf_updateData (d : ChoicesData) (name lecturer : String) (flag : Bool) :
    keysOf (updateData d name lecturer flag) =
      if name ∈ keysOf d then keysOf d else keysOf d ++ [name] := by
  induction d with
  | nil => simp [updateData, keysOf]
  | cons p rest ih =>
    obtain ⟨k, v⟩ := p
    by_cases hk : k = name
    · subst hk
      simp [updateData, keysOf_cons]
    · have hupd : updateData ((k, v) :: rest) name lecturer flag =
          (k, v) :: updateData rest name lecturer flag := by
        simp [updateData, hk]
      rw [hupd, keysOf_cons, keysOf_cons, ih]
      by_cases hm : name ∈ keysOf rest
      · rw [if_pos hm, if_pos (List.mem_cons_of_mem _ hm)]
      · have hnot : name ∉ k :: keysOf rest := by
          intro hc
          rcases List.mem_cons.mp hc with h1 | h2
          · exact hk h1.symm
          · exact hm h2
        rw [if_neg hm, if_neg hnot, List.cons_append]

/-- Updates preserve key uniqueness. -/
theorem keysOf_updateData_nodup (d : ChoicesData) (name lecturer : String)
    (flag : Bool) (h : (keysOf d).Nodup) :
    (keysOf (updateData d name lecturer flag)).Nodup := by
  rw [keysOf_updateData]
  by_cases hm : name ∈ keysOf d
  · simpa [hm]
  · simp [hm, List.nodup_append, h]

theorem foldRows_cons (name : String) (r : CoursesLecturersRow)
    (rs : List CoursesLecturersRow) (d : ChoicesData) :
    foldRows name (r :: rs) d =
      foldRows name rs (updateData d name r.lecturer_name r.is_lecture_rule) := rfl

/-- The inner row loop is invisible at every other key. -/
theorem alistLookup_foldRows_other (rows : List CoursesLecturersRow) (name : String)
    (d : ChoicesData) (n : String) (h : n ≠ name) :
    alistLookup (foldRows name rows d) n = alistLookup d n := by
  induction rows generalizing d with
  | nil => rfl
  | cons r rs ih =>
    rw [foldRows_cons, ih, alistLookup_updateData_other _ _ _ _ _ h]

theorem lectSetOf_cons (r : CoursesLecturersRow) (rs : List CoursesLecturersRow) :
    lectSetOf (r :: rs) =
      if r.is_lecture_rule then insert r.lecturer_name (lectSetOf rs)
      else lectSetOf rs := by
  by_cases hf : r.is_lecture_rule <;> simp [lectSetOf, hf, List.filter_cons]

theorem practSetOf_cons (r : CoursesLecturersRow) (rs : List CoursesLecturersRow) :
    practSetOf (r :: rs) =
      if r.is_lecture_rule then practSetOf rs
      else insert r.lecturer_name (practSetOf rs) := by
  by_cases hf : r.is_lecture_rule <;> simp [practSetOf, hf, List.filter_cons]

/-- Folding rows into a present key unions in the classified lecturers. -/
theorem alistLookup_foldRows_self_some (rows : List CoursesLecturersRow)
    (name : String) (d : ChoicesData) (p : ChoicePair)
    (h : alistLookup d name = some p) :
    alistLookup (foldRows name rows d) name =
      some (p.1 ∪ lectSetOf rows, p.2 ∪ practSetOf rows) := by
  induction rows generalizing d p with
  | nil => simp [foldRows, lectSetOf, practSetOf, h]
  | cons r rs ih =>
    rw [foldRows_cons]
    have h' := alistLookup_updateData_self d name r.lecturer_name r.is_lecture_rule
    rw [h] at h'
    rw [ih _ _ h']
    by_cases hf : r.is_lecture_rule <;>
      simp [addLecturer, hf, lectSetOf_cons, practSetOf_cons, Finset.insert_union,
        Finset.union_insert, ← Finset.insert_eq]

/-- Folding rows into an absent key creates it exactly when there is at
least one row, holding the classified lecturers. -/
theorem alistLookup_foldRows_self_none (rows : List CoursesLecturersRow)
    (name : String) (d : ChoicesData) (h : alistLookup d name = none) :
    alistLookup (foldRows name rows d) name =
      if rows = [] then none else some (lectSetOf rows, practSetOf rows) := by
  cases rows with
  | nil => simpa [foldRows] using h
  | cons r rs =>
    rw [foldRows_cons]
    have h' := alistLookup_updateData_self d name r.lecturer_name r.is_lecture_rule
    rw [h] at h'
    rw [alistLookup_foldRows_self_some rs name _ _ h']
    by_cases hf : r.is_lecture_rule <;>
      simp [addLecturer, hf, lectSetOf_cons, practSetOf_cons, Finset.insert_union,
        Finset.union_insert, ← Finset.insert_eq]

/-- The inner row loop preserves key uniqueness. -/
theorem keysOf_foldRows_nodup (rows : List CoursesLecturersRow) (name : String)
    (d : ChoicesData) (h : (keysOf d).Nodup) :
    (keysOf (foldRows name rows d)).Nodup := by
  induction rows generalizing d with
  | nil => exact h
  | cons r rs ih =>
    rw [foldRows_cons]
    exact ih _ (keysOf_updateData_nodup _ _ _ _ h)

theorem processCourse_eq (db : DB) (cid : Nat) (lang : Language) (d : ChoicesData)
    (c : Course) :
    processCourse db cid lang d c = foldRows c.name (rowsFor db cid lang c) d := rfl

theorem contribRows_cons (db : DB) (cid : Nat) (lang : Language) (c : Course)
    (cs : List Course) (n : String) :
    contribRows db cid lang (c :: cs) n =
      (if c.name = n then rowsFor db cid lang c else []) ++ contribRows db cid lang cs n := by
  by_cases h : c.name = n <;> simp [contribRows, List.filter_cons, h]

theorem lectSetOf_append (xs ys : List CoursesLecturersRow) :
    lectSetOf (xs ++ ys) = lectSetOf xs ∪ lectSetOf ys := by
  simp [lectSetOf, List.filter_append]

theorem practSetOf_append (xs ys : List CoursesLecturersRow) :
    practSetOf (xs ++ ys) = practSetOf xs ∪ practSetOf ys := by
  simp [practSetOf, List.filter_append]

/-- Characterisation of the Builder's fold at a key present in the
accumulator: the contributed lecturers of every input course bearing that
name are unioned in, additively across courses. -/
theorem alistLookup_build_some (db : DB) (cid : Nat) (lang : Language)
    (courses : List Course) (d : ChoicesData) (n : String) (p : ChoicePair)
    (h : alistLookup d n = some p) :
    alistLookup (courses.foldl (processCourse db cid lang) d) n =
      some (p.1 ∪ lectSetOf (contribRows db cid lang courses n),
        p.2 ∪ practSetOf (contribRows db cid lang courses n)) := by
  induction courses generalizing d p with
  | nil => simp [contribRows, lectSetOf, practSetOf, h]
  | cons c cs ih =>
    rw [List.foldl_cons, processCourse_eq]
    by_cases hn : c.name = n
    · subst hn
      have h' := alistLookup_foldRows_self_some (rowsFor db cid lang c) c.name d p h
      rw [ih _ _ h', contribRows_cons]
      simp [lectSetOf_append, practSetOf_append, Finset.union_assoc]
    · have h' : alistLookup (foldRows c.name (rowsFor db cid lang c) d) n = some p := by
        rw [alistLookup_foldRows_other _ _ _ _ (fun hq => hn hq.symm), h]
      rw [ih _ _ h', contribRows_cons]
      simp [hn]

/-- Characterisation of the Builder's fold at a key absent from the
accumulator: the key appears iff some input course bearing that name has at
least one lecturer-role row; its sets are then the classified unions. -/
theorem alistLookup_build_none (db : DB) (cid : Nat) (lang : Language)
    (courses : List Course) (d : ChoicesData) (n : String)
    (h : alistLookup d n = none) :
    alistLookup (courses.foldl (processCourse db cid lang) d) n =
      if contribRows db cid lang courses n = [] then none
      else some (lectSetOf (contribRows db cid lang courses n),
        practSetOf (contribRows db cid lang courses n)) := by
  induction courses generalizing d with
  | nil => simpa [contribRows] using h
  | cons c cs ih =>
    rw [List.foldl_cons, processCourse_eq]
    by_cases hn : c.name = n
    · subst hn
      have h' := alistLookup_foldRows_self_none (rowsFor db cid lang c) c.name d h
      by_cases hrows : rowsFor db cid lang c = []
      · rw [hrows] at h'
        simp only [if_pos rfl] at h'
        rw [hrows, ih _ h', contribRows_cons]
        simp [hrows]
      · rw [if_neg hrows] at h'
        rw [alistLookup_build_some db cid lang cs _ _ _ h', contribRows_cons]
        simp [hrows, lectSetOf_append, practSetOf_append]
    · have h' : alistLookup (foldRows c.name (rowsFor db cid lang c) d) n = none := by
        rw [alistLookup_foldRows_other _ _ _ _ (fun hq => hn hq.symm), h]
      rw [ih _ h', contribRows_cons]
      simp [hn]

/-- The Builder's fold preserves key uniqueness. -/
theorem keysOf_build_nodup (db : DB) (cid : Nat) (lang : Language)
    (courses : List Course) (d : ChoicesData) (h : (keysOf d).Nodup) :
    (keysOf (courses.foldl (processCourse db cid lang) d)).Nodup := by
  induction courses generalizing d with
  | nil => exact h
  | cons c cs ih =>
    rw [List.foldl_cons, processCourse_eq]
    exact ih _ (keysOf_foldRows_nodup _ _ _ h)

/-- Materialising the accumulated pairs into `CourseChoice`s commutes with
lookup. -/
theorem alistLookup_map_mk (d : ChoicesData) (n : String) :
    alistLookup (d.map (fun p => (p.1, CourseChoice.mk p.1 p.2.1 p.2.2))) n =
      (alistLookup d n).map (fun v => CourseChoice.mk n v.1 v.2) := by
  induction d with
  | nil => rfl
  | cons p rest ih =>
    obtain ⟨k, v⟩ := p
    by_cases hk : k = n
    · subst hk
      simp [alistLookup]
    · simp [alistLookup, hk, ih]

/-- Materialising the accumulated pairs into `CourseChoice`s keeps the keys. -/
theorem keysOf_map_mk (d : ChoicesData) :
    keysOf (d.map (fun p => (p.1, CourseChoice.mk p.1 p.2.1 p.2.2))) = keysOf d := by
  simp [keysOf, List.map_map, Function.comp]

/-- With the campus resolved and a non-empty explicit course list, the
Builder is the fold over the given courses (the `courses or ...` fallback is
not taken). -/
theorem load_courses_choices_eq (db : DB) (cn : String) (lang : Language)
    (courses : List Course) (cid : Nat)
    (hcid : Database.load_campus_id db cn = .ok cid) (hne : courses ≠ []) :
    Database.load_courses_choices db cn lang (some courses) =
      .ok ((courses.foldl (processCourse db cid lang) []).map
        (fun p => (p.1, CourseChoice.mk p.1 p.2.1 p.2.2))) := by
  have hempty : courses.isEmpty = false := by
    cases courses with
    | nil => exact absurd rfl hne
    | cons a l => rfl
  unfold Database.load_courses_choices
  rw [hcid]
  simp [hempty, Except.bind]

/-- A course name has contributed rows iff some input course bearing it has
at least one lecturer-role row. -/
theorem contribRows_eq_nil_iff (db : DB) (cid : Nat) (lang : Language)
    (courses : List Course) (n : String) :
    contribRows db cid lang courses n = [] ↔
      ∀ c ∈ courses, c.name = n → rowsFor db cid lang c = [] := by
  simp [contribRows, List.flatMap_eq_nil_iff, List.mem_filter]

/-- The classified lecture set only depends on the rows up to permutation. -/
theorem lectSetOf_perm {xs ys : List CoursesLecturersRow} (h : xs.Perm ys) :
    lectSetOf xs = lectSetOf ys :=
  List.toFinset_eq_of_perm _ _ ((h.filter _).map _)

/-- The classified practice set only depends on the rows up to permutation. -/
theorem practSetOf_perm {xs ys : List CoursesLecturersRow} (h : xs.Perm ys) :
    practSetOf xs = practSetOf ys :=
  List.toFinset_eq_of_perm _ _ ((h.filter _).map _)

/-- If the Builder returned a mapping, the campus resolved. -/
theorem load_campus_id_ok_of_choices_ok (db : DB) (cn : String) (lang : Language)
    (arg : Option (List Course)) (m : List (String × CourseChoice))
    (h : Database.load_courses_choices db cn lang arg = .ok m) :
    ∃ cid, Database.load_campus_id db cn = .ok cid := by
  cases hcid : Database.load_campus_id db cn with
  | ok cid => exact ⟨cid, rfl⟩
  | error e =>
    unfold Database.load_courses_choices at h
    rw [hcid] at h
    exact Except.noConfusion h

/-- With the campus resolved, the Retriever is the concatenation of the
per-entry selections. -/
theorem load_activities_eq (db : DB) (ccs : List (String × CourseChoice))
    (cn : String) (lang : Language) (cid : Nat)
    (hcid : Database.load_campus_id db cn = .ok cid) :
    Database.load_activities_by_courses_choices db ccs cn lang =
      .ok (ccs.flatMap (activitiesForChoice db cid lang)) := by
  unfold Database.load_activities_by_courses_choices
  rw [hcid]
  rfl

/-- A selected activity row carries the entry's course name and the query's
scope. -/
theorem activityMatches_fields (k : String) (ch : CourseChoice) (cid : Nat)
    (lang : Language) (r : ActivityRow) (h : activityMatches k ch cid lang r = true) :
    r.name = k ∧ r.language_value = lang.short_name ∧ r.campus_id = cid := by
  unfold activityMatches at h
  simp only [Bool.and_eq_true, beq_iff_eq] at h
  exact ⟨h.1.1.1, h.1.1.2, h.1.2⟩

/-- The two kind groups of the Retriever's WHERE clause are disjoint. -/
theorem lecture_practice_disjoint :
    ∀ t : ActivityType, ¬(t ∈ lecture_types ∧ t ∈ practice_types) := by
  intro t
  cases t <;> decide

/-- A non-empty lecturer selection admits exactly its members (NULL
lecturers fail SQL `IN`). -/
theorem lecturerFilter_nonempty (S : Finset String) (ln : Option String)
    (hS : S ≠ ∅) (h : lecturerFilter S ln = true) : ∃ l ∈ S, ln = some l := by
  unfold lecturerFilter at h
  rw [if_neg hS] at h
  cases ln with
  | none => exact absurd h (by simp)
  | some l => exact ⟨l, by simpa using h, rfl⟩

/-- Membership characterisation of the attached meetings: exactly the
meeting rows linked to the given activity id under the given campus and
language. -/
theorem mem_loadMeetings (db : DB) (aid : String) (cid : Nat) (lang : Language)
    (mt : Meeting) :
    mt ∈ loadMeetings db aid cid lang ↔
      ∃ mrow ∈ db.meetings, ∃ am ∈ db.activities_meetings,
        mt = Meeting.create_meeting_from_database mrow ∧
        am.meeting_id = mrow.id ∧ am.activity_id = aid ∧
        am.campus_id = cid ∧ am.language_value = lang.short_name := by
  unfold loadMeetings
  constructor
  · intro h
    obtain ⟨mrow, hm, hmt⟩ := List.mem_flatMap.mp h
    obtain ⟨am, hamf, heq⟩ := List.mem_map.mp hmt
    obtain ⟨ham, hpred⟩ := List.mem_filter.mp hamf
    simp only [Bool.and_eq_true, beq_iff_eq] at hpred
    exact ⟨mrow, hm, am, ham, heq.symm, hpred.1.1.1.symm, hpred.1.1.2, hpred.1.2,
      hpred.2⟩
  · rintro ⟨mrow, hm, am, ham, heq, hid, haid, hcid2, hlang⟩
    refine List.mem_flatMap.mpr ⟨mrow, hm, ?_⟩
    refine List.mem_map.mpr ⟨am, ?_, heq.symm⟩
    refine List.mem_filter.mpr ⟨ham, ?_⟩
    simp [hid, haid, hcid2, hlang]

/-! ### Claim theorems -/

/-- **C3.** The claim says hash is derived from the same identity as
equality, so equal Courses have equal hashes.  The code contradicts it:
`__eq__` compares `activity_id` when both are truthy, but `__hash__` always
hashes `(name, course_number, parent_course_number)`.  Two courses sharing
`activity_id = "X"` but differing in the triple compare equal yet hash
differently, so they need not collide as mapping keys. -/
theorem c3_eq_hash_divergence :
    Course.eq
        ({ name := "A", course_number := 1, parent_course_number := 1,
           activity_id := some "X" } : Course)
        ({ name := "B", course_number := 2, parent_course_number := 2,
           activity_id := some "X" } : Course) = true ∧
      Course.hashKey
          ({ name := "A", course_number := 1, parent_course_number := 1,
             activity_id := some "X" } : Course) ≠
        Course.hashKey
          ({ name := "B", course_number := 2, parent_course_number := 2,
             activity_id := some "X" } : Course) := by
  constructor
  · decide
  · decide

/-- **C10.** `add_semesters` and `set_attendance_required` leave the identity
fields `(name, course_number, parent_course_number, activity_id)` unchanged,
hence the hash key and the equality verdict against any other Course are
unchanged by both mutations. -/
theorem c10_mutations_preserve_identity (c : Course) (sems : Finset Semester)
    (t : ActivityType) (b : Bool) (d : Course) :
    ((c.add_semesters sems).name = c.name ∧
        (c.add_semesters sems).course_number = c.course_number ∧
        (c.add_semesters sems).parent_course_number = c.parent_course_number ∧
        (c.add_semesters sems).activity_id = c.activity_id) ∧
      ((c.set_attendance_required t b).name = c.name ∧
        (c.set_attendance_required t b).course_number = c.course_number ∧
        (c.set_attendance_required t b).parent_course_number = c.parent_course_number ∧
        (c.set_attendance_required t b).activity_id = c.activity_id) ∧
      (c.add_semesters sems).hashKey = c.hashKey ∧
      (c.set_attendance_required t b).hashKey = c.hashKey ∧
      Course.eq (c.add_semesters sems) d = Course.eq c d ∧
      Course.eq d (c.add_semesters sems) = Course.eq d c ∧
      Course.eq (c.set_attendance_required t b) d = Course.eq c d ∧
      Course.eq d (c.set_attendance_required t b) = Course.eq d c := by
  obtain ⟨hn, hcn, hp, ha⟩ := set_attendance_required_fields c t b
  have hadd : ∀ x : Course, (Course.eq (c.add_semesters sems) x = Course.eq c x ∧
      Course.eq x (c.add_semesters sems) = Course.eq x c) :=
    fun x => course_eq_congr c _ x rfl rfl rfl rfl
  have hset : Course.eq (c.set_attendance_required t b) d = Course.eq c d ∧
      Course.eq d (c.set_attendance_required t b) = Course.eq d c :=
    course_eq_congr c _ d hn hcn hp ha
  refine ⟨⟨rfl, rfl, rfl, rfl⟩, ⟨hn, hcn, hp, ha⟩, rfl, ?_, (hadd d).1, (hadd d).2,
    hset.1, hset.2⟩
  unfold Course.hashKey
  rw [hn, hcn, hp]

/-- **C2.** When no campus row matches the given name, `load_campus_id`
fails with the NotFound error, and `load_activities_by_courses_choices`
(which resolves the campus first) fails with the same error rather than
returning a partial result. -/
theorem c2_unknown_campus_fails (db : DB) (campus_name : String)
    (language : Language) (ccs : List (String × CourseChoice))
    (h : ∀ r ∈ db.campuses, r.english_name ≠ campus_name ∧ r.hebrew_name ≠ campus_name) :
    Database.load_campus_id db campus_name = .error .notFound ∧
      Database.load_activities_by_courses_choices db ccs campus_name language =
        .error .notFound := by
  have hfind : db.campuses.find? (fun r =>
      r.english_name == campus_name || r.hebrew_name == campus_name) = none := by
    rw [List.find?_eq_none]
    intro r hr
    obtain ⟨h1, h2⟩ := h r hr
    simp [h1, h2]
  have hc : Database.load_campus_id db campus_name = .error .notFound := by
    unfold Database.load_campus_id
    rw [hfind]
  refine ⟨hc, ?_⟩
  unfold Database.load_activities_by_courses_choices
  rw [hc]
  rfl

/-- Witness for **C2** at a concrete store: one campus named "Machon Lev",
queried for "Nowhere". -/
theorem c2_unknown_campus_fails_witness :
    Database.load_campus_id
        ⟨[⟨1, "Machon Lev", "מכון לב"⟩], [], [], [], [], []⟩ "Nowhere" =
      .error .notFound ∧
      Database.load_activities_by_courses_choices
          ⟨[⟨1, "Machon Lev", "מכון לב"⟩], [], [], [], [], []⟩ [] "Nowhere" ⟨"EN"⟩ =
        .error .notFound :=
  c2_unknown_campus_fails _ _ ⟨"EN"⟩ [] (by decide)

/-- **C1, counterexample.** The claim says every input course name appears
as a key, a course with no lecturer-role pairs mapping to an empty
CourseChoice.  In the code `courses_choices_data` is a `defaultdict` whose
entry for a course is only created inside the loop over that course's
fetched rows, so a course with no rows is never inserted: with an empty
`courses_lecturers` table, the non-empty input `[calc1]` yields an empty
mapping — "Calculus" is not a key at all. -/
theorem c1_counterexample :
    Database.load_courses_choices ⟨[mainCampus], [], [], [], [], []⟩ "Main" english
        (some [calc1]) = .ok [] := rfl

/-- **C1, amended.** For a non-empty explicit input with the campus
resolved: the output keys are unique, and a course name is a key iff some
input course bearing it has at least one lecturer-role row in scope — so
each such name appears exactly once, while a course with no rows is omitted
(not mapped to an empty CourseChoice). -/
theorem c1_builder_keys (db : DB) (cn : String) (lang : Language)
    (courses : List Course) (cid : Nat) (m : List (String × CourseChoice))
    (hcid : Database.load_campus_id db cn = .ok cid) (hne : courses ≠ [])
    (h : Database.load_courses_choices db cn lang (some courses) = .ok m) :
    (keysOf m).Nodup ∧
      ∀ n, n ∈ keysOf m ↔ ∃ c ∈ courses, c.name = n ∧ rowsFor db cid lang c ≠ [] := by
  rw [load_courses_choices_eq db cn lang courses cid hcid hne] at h
  injection h with h
  subst h
  rw [keysOf_map_mk]
  constructor
  · exact keysOf_build_nodup db cid lang courses [] List.nodup_nil
  · intro n
    have hnone : alistLookup ([] : ChoicesData) n = none := rfl
    have hch := alistLookup_build_none db cid lang courses [] n hnone
    have hmem := (alistLookup_eq_none_iff
      (courses.foldl (processCourse db cid lang) []) n).not
    constructor
    · intro hk
      by_contra hex
      have hall : ∀ c ∈ courses, c.name = n → rowsFor db cid lang c = [] := by
        intro c hc hcn
        by_contra hr
        exact hex ⟨c, hc, hcn, hr⟩
      rw [if_pos ((contribRows_eq_nil_iff db cid lang courses n).mpr hall)] at hch
      exact ((alistLookup_eq_none_iff _ n).mp hch) hk
    · intro ⟨c, hc, hcn, hr⟩
      by_contra hk
      have : alistLookup (courses.foldl (processCourse db cid lang) []) n ≠ none := by
        intro hcontra
        rw [hch] at hcontra
        by_cases hcr : contribRows db cid lang courses n = []
        · exact hr ((contribRows_eq_nil_iff db cid lang courses n).mp hcr c hc hcn)
        · rw [if_neg hcr] at hcontra
          exact Option.some_ne_none _ hcontra
      exact this ((alistLookup_eq_none_iff _ n).mpr hk)

/-- Witness for **C1 (amended)**: with one lecture row and one practice row
for (10, 20) and a lecture row for (11, 21), the input `[calc1]` produces
the single key "Calculus". -/
theorem c1_builder_keys_witness :
    ([calc1] : List Course) ≠ [] ∧
      ((keysOf [("Calculus", CourseChoice.mk "Calculus"
          (insert "Cohen" ∅) (insert "Levy" ∅))]).Nodup ∧
        ∀ n, n ∈ keysOf [("Calculus", CourseChoice.mk "Calculus"
            (insert "Cohen" ∅) (insert "Levy" ∅))] ↔
          ∃ c ∈ [calc1], c.name = n ∧ rowsFor builderDB 1 english c ≠ []) :=
  ⟨by simp,
    c1_builder_keys builderDB "Main" english [calc1] 1
      [("Calculus", CourseChoice.mk "Calculus" (insert "Cohen" ∅) (insert "Levy" ∅))]
      rfl (by simp) rfl⟩

/-- **C7.** In the Builder's output, the entry of an input course that has
at least one lecturer-role row holds exactly the classified unions: the set
of lecturers of true-flag rows and the set of lecturers of false-flag rows
(so a lecturer appearing in several same-role rows contributes once); in
particular each row's lecturer lands in the set chosen by its flag. -/
theorem c7_role_classification (db : DB) (cn : String) (lang : Language)
    (courses : List Course) (cid : Nat) (m : List (String × CourseChoice))
    (course : Course) (r : CoursesLecturersRow)
    (hcid : Database.load_campus_id db cn = .ok cid) (hne : courses ≠ [])
    (h : Database.load_courses_choices db cn lang (some courses) = .ok m)
    (hc : course ∈ courses) (hr : r ∈ rowsFor db cid lang course) :
    ∃ choice, alistLookup m course.name = some choice ∧
      choice.available_teachers_for_lecture =
        lectSetOf (contribRows db cid lang courses course.name) ∧
      choice.available_teachers_for_practice =
        practSetOf (contribRows db cid lang courses course.name) ∧
      (r.is_lecture_rule = true →
        r.lecturer_name ∈ choice.available_teachers_for_lecture) ∧
      (r.is_lecture_rule = false →
        r.lecturer_name ∈ choice.available_teachers_for_practice) := by
  rw [load_courses_choices_eq db cn lang courses cid hcid hne] at h
  injection h with h
  subst h
  have hrc : r ∈ contribRows db cid lang courses course.name := by
    rw [contribRows]
    exact List.mem_flatMap.mpr ⟨course, List.mem_filter.mpr ⟨hc, by simp⟩, hr⟩
  have hnil : contribRows db cid lang courses course.name ≠ [] :=
    List.ne_nil_of_mem hrc
  have hnone : alistLookup ([] : ChoicesData) course.name = none := rfl
  have hch := alistLookup_build_none db cid lang courses [] course.name hnone
  rw [if_neg hnil] at hch
  rw [alistLookup_map_mk, hch]
  refine ⟨_, rfl, rfl, rfl, ?_, ?_⟩
  · intro hflag
    simp only [lectSetOf, List.mem_toFinset, List.mem_map]
    exact ⟨r, List.mem_filter.mpr ⟨hrc, hflag⟩, rfl⟩
  · intro hflag
    simp only [practSetOf, List.mem_toFinset, List.mem_map]
    exact ⟨r, List.mem_filter.mpr ⟨hrc, by simp [hflag]⟩, rfl⟩

/-- Witness for **C7**: Cohen's lecture row for "Calculus" lands in the
lecture set of the "Calculus" entry. -/
theorem c7_role_classification_witness :
    ∃ choice, alistLookup
        [("Calculus", CourseChoice.mk "Calculus" (insert "Cohen" ∅) (insert "Levy" ∅))]
        calc1.name = some choice ∧
      choice.available_teachers_for_lecture =
        lectSetOf (contribRows builderDB 1 english [calc1] calc1.name) ∧
      choice.available_teachers_for_practice =
        practSetOf (contribRows builderDB 1 english [calc1] calc1.name) ∧
      (rowCohenLecture.is_lecture_rule = true →
        rowCohenLecture.lecturer_name ∈ choice.available_teachers_for_lecture) ∧
      (rowCohenLecture.is_lecture_rule = false →
        rowCohenLecture.lecturer_name ∈ choice.available_teachers_for_practice) :=
  c7_role_classification builderDB "Main" english [calc1] 1
    [("Calculus", CourseChoice.mk "Calculus" (insert "Cohen" ∅) (insert "Levy" ∅))]
    calc1 rowCohenLecture rfl (by simp) rfl (by simp) (by decide)

/-- **C9.** Building twice from the same input yields the same mapping, and
permuting the input courses (additive merging included: several input
courses may share one name) leaves every name's looked-up CourseChoice — in
particular the membership of both lecturer sets — unchanged. -/
theorem c9_build_order_independent (db : DB) (cn : String) (lang : Language)
    (courses1 courses2 : List Course) (m1 m2 : List (String × CourseChoice))
    (hp : courses1.Perm courses2)
    (h1 : Database.load_courses_choices db cn lang (some courses1) = .ok m1)
    (h2 : Database.load_courses_choices db cn lang (some courses2) = .ok m2) :
    ∀ n, alistLookup m1 n = alistLookup m2 n := by
  intro n
  by_cases hnil : courses1 = []
  · subst hnil
    have h2nil : courses2 = [] := hp.nil_eq.symm
    subst h2nil
    rw [h1] at h2
    injection h2 with h2
    rw [h2]
  · have hnil2 : courses2 ≠ [] := by
      intro hc
      subst hc
      exact hnil hp.eq_nil
    obtain ⟨cid, hcid⟩ := load_campus_id_ok_of_choices_ok db cn lang (some courses1) m1 h1
    rw [load_courses_choices_eq db cn lang courses1 cid hcid hnil] at h1
    rw [load_courses_choices_eq db cn lang courses2 cid hcid hnil2] at h2
    injection h1 with h1
    injection h2 with h2
    subst h1
    subst h2
    rw [alistLookup_map_mk, alistLookup_map_mk]
    have hperm : (contribRows db cid lang courses1 n).Perm
        (contribRows db cid lang courses2 n) :=
      (hp.filter _).flatMap_right (rowsFor db cid lang)
    have hnone1 : alistLookup ([] : ChoicesData) n = none := rfl
    rw [alistLookup_build_none db cid lang courses1 [] n hnone1,
      alistLookup_build_none db cid lang courses2 [] n hnone1]
    by_cases hcr : contribRows db cid lang courses1 n = []
    · have hcr2 : contribRows db cid lang courses2 n = [] := by
        have hp2 := hperm
        rw [hcr] at hp2
        exact hp2.nil_eq.symm
      rw [if_pos hcr, if_pos hcr2]
    · have hcr2 : contribRows db cid lang courses2 n ≠ [] := by
        intro hc
        apply hcr
        have hp2 := hperm
        rw [hc] at hp2
        exact hp2.eq_nil
      rw [if_neg hcr, if_neg hcr2, lectSetOf_perm hperm, practSetOf_perm hperm]

/-- Witness for **C9**: swapping "Calculus" and "Algebra" in the input
permutes the output entries but changes no lookup. -/
theorem c9_build_order_independent_witness :
    (alistLookup
        [("Calculus", CourseChoice.mk "Calculus" (insert "Cohen" ∅) (insert "Levy" ∅)),
         ("Algebra", CourseChoice.mk "Algebra" (insert "Smith" ∅) ∅)] "Calculus" =
      alistLookup
        [("Algebra", CourseChoice.mk "Algebra" (insert "Smith" ∅) ∅),
         ("Calculus", CourseChoice.mk "Calculus" (insert "Cohen" ∅) (insert "Levy" ∅))]
        "Calculus") ∧
      (alistLookup
        [("Calculus", CourseChoice.mk "Calculus" (insert "Cohen" ∅) (insert "Levy" ∅)),
         ("Algebra", CourseChoice.mk "Algebra" (insert "Smith" ∅) ∅)] "Algebra" =
      alistLookup
        [("Algebra", CourseChoice.mk "Algebra" (insert "Smith" ∅) ∅),
         ("Calculus", CourseChoice.mk "Calculus" (insert "Cohen" ∅) (insert "Levy" ∅))]
        "Algebra") :=
  ⟨c9_build_order_independent builderDB "Main" english [calc1, algebra1] [algebra1, calc1]
      _ _ (by decide) rfl rfl "Calculus",
    c9_build_order_independent builderDB "Main" english [calc1, algebra1] [algebra1, calc1]
      _ _ (by decide) rfl rfl "Algebra"⟩

/-- The Retriever's per-entry body, spelt out. -/
theorem activitiesForChoice_eq (db : DB) (cid : Nat) (lang : Language)
    (e : String × CourseChoice) :
    activitiesForChoice db cid lang e =
      (db.activities.filter (activityMatches e.1 e.2 cid lang)).map
        (fun r => academicActivityFromRow r (loadMeetings db r.activity_id cid lang)) := rfl

/-- **C4, counterexample.** The claim says an empty selection returns all
activities of the course in scope regardless of lecturer.  The code's
empty-selection fallback is the SQL condition `lecturer_name IS NOT NULL`,
so an in-scope "Calculus" lecture whose lecturer column is NULL is *not*
returned: the store below holds exactly that activity, yet the wildcard
query returns nothing. -/
theorem c4_counterexample :
    nullLectureRow ∈ nullLecDB.activities ∧ nullLectureRow.name = "Calculus" ∧
      nullLectureRow.campus_id = 1 ∧
      nullLectureRow.language_value = english.short_name ∧
      Database.load_campus_id nullLecDB "Main" = .ok 1 ∧
      Database.load_activities_by_courses_choices nullLecDB
        [("Calculus", wildcardChoice)] "Main" english = .ok [] :=
  ⟨by simp [nullLecDB], rfl, rfl, rfl, rfl, rfl⟩

/-- **C4, amended.** With both lecturer selections empty the Retriever
returns, for the course, exactly the in-scope activities whose kind lies in
one of the two kind groups and whose lecturer is non-NULL, regardless of who
that lecturer is (the wildcard is `IS NOT NULL`, not "no matching
activities" — but it does exclude NULL-lecturer rows and out-of-group
kinds). -/
theorem c4_wildcard (db : DB) (cn : String) (lang : Language) (cid : Nat)
    (name : String) (choice : CourseChoice)
    (hcid : Database.load_campus_id db cn = .ok cid)
    (hl : choice.available_teachers_for_lecture = ∅)
    (hp : choice.available_teachers_for_practice = ∅) :
    Database.load_activities_by_courses_choices db [(name, choice)] cn lang =
      .ok ((db.activities.filter (fun r =>
          r.name == name && r.language_value == lang.short_name &&
          r.campus_id == cid &&
          (decide (r.activity_type ∈ lecture_types) ||
            decide (r.activity_type ∈ practice_types)) &&
          r.lecturer_name.isSome)).map
        (fun r => academicActivityFromRow r (loadMeetings db r.activity_id cid lang))) := by
  rw [load_activities_eq db _ cn lang cid hcid]
  simp only [List.flatMap_cons, List.flatMap_nil, List.append_nil, activitiesForChoice_eq]
  have hfil : ∀ r ∈ db.activities, activityMatches name choice cid lang r =
      (r.name == name && r.language_value == lang.short_name &&
        r.campus_id == cid &&
        (decide (r.activity_type ∈ lecture_types) ||
          decide (r.activity_type ∈ practice_types)) &&
        r.lecturer_name.isSome) := by
    intro r _
    unfold activityMatches lecturerFilter
    rw [hl, hp]
    cases hS : r.lecturer_name.isSome <;> simp [hS]
  rw [show activityMatches ((name, choice) : String × CourseChoice).1
      ((name, choice) : String × CourseChoice).2 cid lang =
      activityMatches name choice cid lang from rfl]
  rw [List.filter_congr hfil]

/-- Witness for **C4 (amended)** on a store with three non-NULL activities:
the full wildcard returns exactly the in-scope kind-grouped rows. -/
theorem c4_wildcard_witness :
    Database.load_activities_by_courses_choices retrDB
        [("Calculus", wildcardChoice)] "Main" english =
      .ok ((retrDB.activities.filter (fun r =>
          r.name == "Calculus" && r.language_value == english.short_name &&
          r.campus_id == 1 &&
          (decide (r.activity_type ∈ lecture_types) ||
            decide (r.activity_type ∈ practice_types)) &&
          r.lecturer_name.isSome)).map
        (fun r => academicActivityFromRow r (loadMeetings retrDB r.activity_id 1 english))) :=
  c4_wildcard retrDB "Main" english 1 "Calculus" wildcardChoice rfl rfl rfl

/-- **C5.** With a non-empty lecture-lecturer selection S: every returned
lecture-like activity's lecturer is a member of S, and the practice-like
part of the result is exactly what it would be with the lecture selection
emptied — the two kind groups are gated only by their own filters, combined
by OR. -/
theorem c5_lecture_filter (db : DB) (cn : String) (lang : Language) (cid : Nat)
    (name : String) (choice : CourseChoice) (as as0 : List AcademicActivity)
    (hcid : Database.load_campus_id db cn = .ok cid)
    (hS : choice.available_teachers_for_lecture ≠ ∅)
    (h : Database.load_activities_by_courses_choices db [(name, choice)] cn lang = .ok as)
    (h0 : Database.load_activities_by_courses_choices db
      [(name, { choice with available_teachers_for_lecture := ∅ })] cn lang = .ok as0) :
    (∀ a ∈ as, a.activity_type ∈ lecture_types →
        ∃ l ∈ choice.available_teachers_for_lecture, a.lecturer_name = some l) ∧
      as.filter (fun a => decide (a.activity_type ∈ practice_types)) =
        as0.filter (fun a => decide (a.activity_type ∈ practice_types)) := by
  rw [load_activities_eq db _ cn lang cid hcid] at h h0
  injection h with h
  injection h0 with h0
  subst h
  subst h0
  constructor
  · intro a ha hlec
    simp only [List.flatMap_cons, List.flatMap_nil, List.append_nil,
      activitiesForChoice_eq, List.mem_map] at ha
    obtain ⟨r, hrf, rfl⟩ := ha
    obtain ⟨hr, hpred⟩ := List.mem_filter.mp hrf
    unfold activityMatches at hpred
    simp only [Bool.and_eq_true, Bool.or_eq_true, decide_eq_true_eq] at hpred
    rcases hpred.2 with ⟨hA, hlf⟩ | ⟨hB, hpf⟩
    · obtain ⟨l, hlS, hln⟩ := lecturerFilter_nonempty _ _ hS hlf
      exact ⟨l, hlS, hln⟩
    · exact absurd ⟨hlec, hB⟩ (lecture_practice_disjoint r.activity_type)
  · simp only [List.flatMap_cons, List.flatMap_nil, List.append_nil,
      activitiesForChoice_eq]
    rw [List.filter_map, List.filter_map]
    congr 1
    rw [List.filter_filter, List.filter_filter]
    apply List.filter_congr
    intro r _
    by_cases hq : r.activity_type ∈ practice_types
    · have hnl : r.activity_type ∉ lecture_types := fun hc =>
        lecture_practice_disjoint r.activity_type ⟨hc, hq⟩
      unfold activityMatches
      simp [hq, hnl, Function.comp, academicActivityFromRow]
    · simp [Function.comp, hq, academicActivityFromRow]

/-- Witness for **C5**: restricting lectures to Cohen keeps Cohen's lecture
and drops Levy's, while Levy's practice section survives unchanged. -/
theorem c5_lecture_filter_witness :
    (∀ a ∈ [academicActivityFromRow actCohenLec [],
        academicActivityFromRow actLevyPract []],
      a.activity_type ∈ lecture_types →
        ∃ l ∈ cohenChoice.available_teachers_for_lecture, a.lecturer_name = some l) ∧
      [academicActivityFromRow actCohenLec [],
          academicActivityFromRow actLevyPract []].filter
          (fun a => decide (a.activity_type ∈ practice_types)) =
        [academicActivityFromRow actCohenLec [], academicActivityFromRow actLevyLec [],
            academicActivityFromRow actLevyPract []].filter
          (fun a => decide (a.activity_type ∈ practice_types)) :=
  c5_lecture_filter retrDB "Main" english 1 "Calculus" cohenChoice
    [academicActivityFromRow actCohenLec [], academicActivityFromRow actLevyPract []]
    [academicActivityFromRow actCohenLec [], academicActivityFromRow actLevyLec [],
      academicActivityFromRow actLevyPract []]
    rfl (by decide) rfl rfl

/-- **C6.** Under the primary key of the `activities` table — no two rows
share (activity_id, campus_id, language_value), which `INSERT OR IGNORE`
maintains — and with the input's course names unique (they are keys of a
Python dict), the Retriever's output has no two entries with the same
(activity_id, campus, language): the scope is fixed by the query, so no
activity id repeats. -/
theorem c6_no_duplicates (db : DB) (ccs : List (String × CourseChoice)) (cn : String)
    (lang : Language) (cid : Nat) (as : List AcademicActivity)
    (hPK : (db.activities.map
      (fun r => (r.activity_id, r.campus_id, r.language_value))).Nodup)
    (hkeys : (ccs.map Prod.fst).Nodup)
    (hcid : Database.load_campus_id db cn = .ok cid)
    (h : Database.load_activities_by_courses_choices db ccs cn lang = .ok as) :
    (as.map (fun a => (a.activity_id, cn, lang))).Nodup := by
  rw [load_activities_eq db ccs cn lang cid hcid] at h
  injection h with h
  subst h
  have hrows : db.activities.Nodup := hPK.of_map
  have hinj : ∀ x ∈ db.activities, ∀ y ∈ db.activities,
      (x.activity_id, x.campus_id, x.language_value) =
        (y.activity_id, y.campus_id, y.language_value) → x = y :=
    List.inj_on_of_nodup_map hPK
  have hmap : (ccs.flatMap (activitiesForChoice db cid lang)).map
        (fun a => (a.activity_id, cn, lang)) =
      (ccs.flatMap (fun e => (db.activities.filter
          (activityMatches e.1 e.2 cid lang)).map (fun r => r.activity_id))).map
        (fun i => (i, cn, lang)) := by
    rw [List.map_flatMap, List.map_flatMap]
    congr 1
    funext e
    simp only [activitiesForChoice_eq, List.map_map]
    rfl
  rw [hmap]
  apply List.Nodup.map
  · intro i j hij
    simpa using congrArg Prod.fst hij
  · apply List.nodup_flatMap.mpr
    constructor
    · intro e _
      apply List.Nodup.map_on ?_ (hrows.filter _)
      intro x hx y hy hxy
      obtain ⟨hx', hpx⟩ := List.mem_filter.mp hx
      obtain ⟨hy', hpy⟩ := List.mem_filter.mp hy
      obtain ⟨-, hlx, hcx⟩ := activityMatches_fields _ _ _ _ _ hpx
      obtain ⟨-, hly, hcy⟩ := activityMatches_fields _ _ _ _ _ hpy
      exact hinj x hx' y hy' (by rw [hxy, hcx, hcy, hlx, hly])
    · refine (List.pairwise_map.mp hkeys).imp ?_
      intro e1 e2 h12 id h1 h2
      obtain ⟨r1, hr1f, hid1⟩ := List.mem_map.mp h1
      obtain ⟨r2, hr2f, hid2⟩ := List.mem_map.mp h2
      obtain ⟨hr1, hp1⟩ := List.mem_filter.mp hr1f
      obtain ⟨hr2, hp2⟩ := List.mem_filter.mp hr2f
      obtain ⟨hn1, hl1, hc1⟩ := activityMatches_fields _ _ _ _ _ hp1
      obtain ⟨hn2, hl2, hc2⟩ := activityMatches_fields _ _ _ _ _ hp2
      have hreq : r1 = r2 :=
        hinj r1 hr1 r2 hr2 (by rw [hid1, hid2, hc1, hc2, hl1, hl2])
      exact h12 (by rw [← hn1, ← hn2, hreq])

/-- Witness for **C6**: three distinct activities under one course entry —
the output's (activity_id, campus, language) triples are pairwise distinct. -/
theorem c6_no_duplicates_witness :
    ([academicActivityFromRow actCohenLec [],
        academicActivityFromRow actLevyPract []].map
      (fun a => (a.activity_id, "Main", english))).Nodup :=
  c6_no_duplicates retrDB [("Calculus", cohenChoice)] "Main" english 1
    [academicActivityFromRow actCohenLec [], academicActivityFromRow actLevyPract []]
    (by decide) (by decide) rfl rfl

/-- **C8.** Every activity the Retriever selects carries exactly the
meetings linked to its activity id under the query's campus and language: a
meeting is attached iff a link row with that id and that exact scope exists,
so links of the same activity id under another campus or language are never
attached. -/
theorem c8_meetings_scope (db : DB) (ccs : List (String × CourseChoice)) (cn : String)
    (lang : Language) (cid : Nat) (as : List AcademicActivity) (a : AcademicActivity)
    (hcid : Database.load_campus_id db cn = .ok cid)
    (h : Database.load_activities_by_courses_choices db ccs cn lang = .ok as)
    (ha : a ∈ as) (mt : Meeting) :
    mt ∈ a.meetings ↔
      ∃ mrow ∈ db.meetings, ∃ am ∈ db.activities_meetings,
        mt = Meeting.create_meeting_from_database mrow ∧
        am.meeting_id = mrow.id ∧ am.activity_id = a.activity_id ∧
        am.campus_id = cid ∧ am.language_value = lang.short_name := by
  rw [load_activities_eq db ccs cn lang cid hcid] at h
  injection h with h
  subst h
  obtain ⟨e, _, hae⟩ := List.mem_flatMap.mp ha
  rw [activitiesForChoice_eq] at hae
  obtain ⟨r, _, rfl⟩ := List.mem_map.mp hae
  exact mem_loadMeetings db r.activity_id cid lang mt

/-- Witness for **C8**: activity "A1" is linked to meeting 100 in scope and
to meeting 101 under campus 2; only meeting 100 is attached, and the
characterisation holds for it. -/
theorem c8_meetings_scope_witness :
    Meeting.create_meeting_from_database meetingRow1 ∈
        (academicActivityFromRow actCohenLec
          [Meeting.create_meeting_from_database meetingRow1]).meetings ↔
      ∃ mrow ∈ meetDB.meetings, ∃ am ∈ meetDB.activities_meetings,
        Meeting.create_meeting_from_database meetingRow1 =
          Meeting.create_meeting_from_database mrow ∧
        am.meeting_id = mrow.id ∧
        am.activity_id = (academicActivityFromRow actCohenLec
          [Meeting.create_meeting_from_database meetingRow1]).activity_id ∧
        am.campus_id = 1 ∧ am.language_value = english.short_name :=
  c8_meetings_scope meetDB [("Calculus", cohenChoice)] "Main" english 1
    [academicActivityFromRow actCohenLec [Meeting.create_meeting_from_database meetingRow1]]
    (academicActivityFromRow actCohenLec [Meeting.create_meeting_from_database meetingRow1])
    rfl rfl (by simp) (Meeting.create_meeting_from_database meetingRow1)

end SemOrg
